import Mathlib

/-!
Verification development for the doc-via-doxygen pipeline task
(src/pipeline-task/src/index.ts).  The task is orchestration glue over three
external collaborators: the pipeline host input/result/artifact API, the file
system, and the external doxygen binary.  We embed the task shallowly: the
outcomes of every awaited external operation are collected in an `Env` record,
and the observable process state (working directory, temporary file, host
result calls, logs, warnings, subprocess invocations, file reads/writes,
artifact uploads) is threaded explicitly through executable functions that
mirror the TypeScript control flow statement by statement.
-/

namespace Doxy

/-- Host result status (tl.TaskResult in azure-pipelines-task-lib). -/
inductive TaskResult where
  | Succeeded
  | Failed
deriving DecidableEq

/-- The TaskInputs interface of index.ts.  `projectVersion` and
`customDoxyFilePath` are optional in the interface (string or undefined);
we model them as `Option String`. -/
structure TaskInputs where
  sourceDirectory : String
  outputDirectory : String
  projectName : String
  projectVersion : Option String
  sourceFilePattern : String
  useCustomDoxyFile : Bool
  customDoxyFilePath : Option String
deriving DecidableEq

instance {ε α : Type} [DecidableEq ε] [DecidableEq α] : DecidableEq (Except ε α)
  | Except.error a, Except.error b =>
    if h : a = b then isTrue (by rw [h])
    else isFalse (fun k => h (Except.error.inj k))
  | Except.error _, Except.ok _ => isFalse (fun k => Except.noConfusion k)
  | Except.ok _, Except.error _ => isFalse (fun k => Except.noConfusion k)
  | Except.ok a, Except.ok b =>
    if h : a = b then isTrue (by rw [h])
    else isFalse (fun k => h (Except.ok.inj k))

/-- Outcomes of the external (awaited) operations of one task execution, in
program order.  Each `Except String` value carries the stringification
`${error}` of the rejection on the error side.  `pathExists` is fs-extra's
pathExists, which resolves a boolean and does not reject. -/
structure Env where
  doxygenVersion : Except String (String × String)
  pathExists : Bool
  ensureDir : Except String Unit
  chdirSource : Except String Unit
  readFile : Except String String
  writeFile : Except String Unit
  execDoxygen : Except String (String × String)
  removeTemp : Except String Unit
  chdirBack : Except String Unit
  upload : Except String Unit
deriving DecidableEq

/-- Observable process state threaded through the task: the process-wide
working directory, whether the temporary configuration file currently exists,
console.log/error lines, console.warn lines, the tl.setResult calls made so
far (in order), the execAsync command lines issued, the file paths read, the
(path, content) pairs written, and the tl.uploadArtifact calls made. -/
structure ProcState where
  cwd : String
  tempFileExists : Bool
  logs : List String
  warnings : List String
  results : List (TaskResult × String)
  execCalls : List String
  reads : List String
  writes : List (String × String)
  uploads : List (String × String × String)
deriving DecidableEq

/-- A fresh state with a given working directory and no recorded events. -/
def initState (cwd : String) : ProcState :=
  ⟨cwd, false, [], [], [], [], [], [], []⟩

/-- JavaScript truthiness of an optional string: undefined and the empty
string are falsy. -/
def strTruthy (o : Option String) : Bool :=
  match o with
  | none => false
  | some s => !s.isEmpty

/-- JavaScript template-literal rendering of an optional string:
undefined prints as the text undefined. -/
def optShow (o : Option String) : String :=
  match o with
  | none => "undefined"
  | some s => s

/-- JavaScript `a || d` for an optional string a: the default is taken when
a is undefined or empty (falsy). -/
def orDefault (o : Option String) (d : String) : String :=
  match o with
  | none => d
  | some s => if s.isEmpty then d else s

/-- Model of tl.loc: the host's localization facility is an opaque external
collaborator; the repository's test suite mocks it as
key followed by a colon-space and the comma-joined arguments, and we adopt
that rendering. -/
def tlLoc (key : String) (args : List String) : String :=
  key ++ ": " ++ String.intercalate ", " args

/-- Model of Node's path.resolve(base, p) for POSIX paths: an absolute p wins,
a relative p is joined to the base (normalization of dots is irrelevant to
every claim and omitted; path.resolve is an external collaborator). -/
def pathResolve (base p : String) : String :=
  if p.startsWith "/" then p else base ++ "/" ++ p

/-- Model of Node's path.join(a, b) for POSIX paths. -/
def joinPath (a b : String) : String :=
  a ++ "/" ++ b

/-! ## The OUTPUT_DIRECTORY regex substitution

index.ts line 98 patches a custom configuration with
configContent.replace(/^OUTPUT_DIRECTORY\s*=.*$/m, OUTPUT_DIRECTORY = out).
We embed ECMAScript regex semantics for this fixed pattern: `m` makes the
anchors line-aware, `^` matches at the string start or after a line
terminator, `\s` matches the JS whitespace class (which includes line
terminators), `.` excludes line terminators, and `$` holds at the string end
or before a line terminator; without the `g` flag only the first match is
replaced, and the replacement string undergoes GetSubstitution (dollar
escapes). -/

/-- ECMAScript LineTerminator characters. -/
def isLineTerm (c : Char) : Bool :=
  c == '\n' || c == '\r' || c == Char.ofNat 0x2028 || c == Char.ofNat 0x2029

/-- ECMAScript \s character class (WhiteSpace and LineTerminator). -/
def isJsWs (c : Char) : Bool :=
  c == ' ' || c == '\t' || c == '\n' || c == '\r' ||
  c == Char.ofNat 0x0B || c == Char.ofNat 0x0C ||
  c == Char.ofNat 0x00A0 || c == Char.ofNat 0x1680 ||
  (0x2000 ≤ c.toNat && c.toNat ≤ 0x200A) ||
  c == Char.ofNat 0x2028 || c == Char.ofNat 0x2029 ||
  c == Char.ofNat 0x202F || c == Char.ofNat 0x205F ||
  c == Char.ofNat 0x3000 || c == Char.ofNat 0xFEFF

/-- The literal part of the pattern. -/
def LIT : List Char := "OUTPUT_DIRECTORY".toList

/-- Strip a literal prefix, returning the remainder on success. -/
def stripPref : List Char → List Char → Option (List Char)
  | [], l => some l
  | _ :: _, [] => none
  | a :: as, b :: bs => if a = b then stripPref as bs else none

/-- Attempt to match /^OUTPUT_DIRECTORY\s*=.*$/ at the head of l, where
atLS says whether this position is a line start (for the `^` anchor in
multiline mode).  On success, return the matched region and the remainder
of the string.  Greediness is deterministic here: `=` is not in \s and
`$` always succeeds after a maximal `.*`. -/
def matchAt (l : List Char) (atLS : Bool) : Option (List Char × List Char) :=
  if atLS then
    match stripPref LIT l with
    | none => none
    | some r1 =>
      match r1.dropWhile isJsWs with
      | '=' :: r3 =>
        some (LIT ++ r1.takeWhile isJsWs ++ '=' :: r3.takeWhile (fun c => !isLineTerm c),
          r3.dropWhile (fun c => !isLineTerm c))
      | _ => none
  else none

/-- Scan left to right for the first position where the pattern matches
(ECMAScript non-global replace semantics).  Returns the text before the
match, the matched region, and the text after it. -/
def scan : List Char → Bool → Option (List Char × List Char × List Char)
  | [], atLS =>
    match matchAt [] atLS with
    | some (m, r) => some ([], m, r)
    | none => none
  | c :: cs, atLS =>
    match matchAt (c :: cs) atLS with
    | some (m, r) => some ([], m, r)
    | none =>
      match scan cs (isLineTerm c) with
      | some (p, m, r) => some (c :: p, m, r)
      | none => none

/-- Line-start flag after consuming a list of characters, given the flag at
its start: the multiline `^` anchor holds at the string start and right after
any line terminator. -/
def lsAfter (ls : Bool) : List Char → Bool
  | [] => ls
  | c :: cs => lsAfter (isLineTerm c) cs

/-- Boolean list-prefix test (helper for stating which regions start with the
pattern literal). -/
def isPrefB : List Char → List Char → Bool
  | [], _ => true
  | _ :: _, [] => false
  | a :: as, b :: bs => a == b && isPrefB as bs

/-- ECMAScript GetSubstitution for a replacement template against a match:
dollar-dollar is a literal dollar, dollar-ampersand the matched text,
dollar-backquote the text before the match, dollar-quote the text after it;
every other dollar sequence is literal (the pattern has no capture groups,
so numbered and named references do not apply). -/
def getSubst (matched pre suf : List Char) : List Char → List Char
  | [] => []
  | ['$'] => ['$']
  | '$' :: d :: rest' =>
    if d = '$' then '$' :: getSubst matched pre suf rest'
    else if d = '&' then matched ++ getSubst matched pre suf rest'
    else if d = Char.ofNat 0x60 then pre ++ getSubst matched pre suf rest'
    else if d = '\'' then suf ++ getSubst matched pre suf rest'
    else '$' :: getSubst matched pre suf (d :: rest')
  | c :: rest => c :: getSubst matched pre suf rest

/-- The custom-mode patch of index.ts lines 98-101:
configContent.replace(/^OUTPUT_DIRECTORY\s*=.*$/m, OUTPUT_DIRECTORY = out). -/
def replaceOutputDirectory (content out : String) : String :=
  match scan content.toList true with
  | none => content
  | some (p, m, r) =>
    String.mk (p ++ getSubst m p r ("OUTPUT_DIRECTORY = " ++ out).toList ++ r)

/-- Split a string into its newline-separated lines (used only to state
line-preservation properties of the patch). -/
def splitNl : List Char → List String
  | [] => [""]
  | c :: cs =>
    if c = '\n' then
      "" :: splitNl cs
    else
      match splitNl cs with
      | [] => [String.mk [c]]
      | s :: ss => String.mk (c :: s.toList) :: ss

/-- Lines of a string, splitting on newline. -/
def strLines (s : String) : List String :=
  splitNl s.toList

/-- The auto-mode configuration template of generateAutoDoxyfile
(index.ts lines 135-192), transcribed verbatim; the concatenation is grouped
so that each directive carrying an interpolated input is one parenthesized
subterm (the grouping does not change the string, since append is
associative).  The PROJECT_NUMBER interpolation mirrors the template
fallback: projectVersion falls back to 1.0 when falsy. -/
def generateAutoDoxyfile (inputs : TaskInputs) : String :=
  "# Auto-generated Doxygen configuration file\n# Generated by Azure DevOps Doc via Doxygen task\n\n# Project information\n" ++
  (("PROJECT_NAME           = \"" ++ inputs.projectName ++ "\"") ++
  ("\n" ++
  (("PROJECT_NUMBER         = \"" ++ orDefault inputs.projectVersion "1.0" ++ "\"") ++
  ("\nPROJECT_BRIEF          = \"Documentation for " ++ inputs.projectName ++
      "\"\n\n# Input settings\n" ++
  (("INPUT                  = " ++ inputs.sourceDirectory) ++
  ("\nRECURSIVE              = YES\n" ++
  (("FILE_PATTERNS          = " ++ inputs.sourceFilePattern) ++
  ("\n\n# Output settings\n" ++
  (("OUTPUT_DIRECTORY       = " ++ inputs.outputDirectory) ++
  "\nGENERATE_HTML          = YES\nGENERATE_LATEX         = NO\nHTML_OUTPUT            = html\n\n# Documentation extraction settings\nEXTRACT_ALL            = YES\nEXTRACT_PRIVATE        = YES\nEXTRACT_STATIC         = YES\nEXTRACT_LOCAL_CLASSES  = YES\n\n# Source browsing\nSOURCE_BROWSER         = YES\nINLINE_SOURCES         = YES\n\n# Preprocessing\nENABLE_PREPROCESSING   = YES\nMACRO_EXPANSION        = YES\nEXPAND_ONLY_PREDEF     = NO\n\n# Dot tool (for diagrams)\nHAVE_DOT               = NO\nCLASS_DIAGRAMS         = YES\n\n# Other settings\nGENERATE_TREEVIEW      = YES\nDISABLE_INDEX          = NO\nFULL_SIDEBAR           = NO\nHTML_COLORSTYLE_HUE    = 220\nHTML_COLORSTYLE_SAT    = 100\nHTML_COLORSTYLE_GAMMA  = 80\n\n# Include subdirectories\nRECURSIVE              = YES\n\n# Optimize for different programming languages\nOPTIMIZE_OUTPUT_FOR_C  = YES\nOPTIMIZE_OUTPUT_JAVA   = YES\n\n# Include documentation for undocumented members\nEXTRACT_ALL            = YES\n")))))))))

/-- Whether the doxygen version probe succeeded (checkDoxygenInstallation
returns true exactly when execAsync resolves). -/
def doxygenOk (env : Env) : Bool :=
  match env.doxygenVersion with
  | .ok _ => true
  | .error _ => false

/-- checkDoxygenInstallation (index.ts lines 38-47): issue the version probe,
log the outcome, and return a boolean; the catch-all swallows any rejection
and yields false, so the probe never raises. -/
def checkDoxygenInstallation (env : Env) (st : ProcState) : ProcState × Bool :=
  let st := { st with execCalls := st.execCalls ++ ["doxygen --version"] }
  match env.doxygenVersion with
  | .ok _ => ({ st with logs := st.logs ++ ["Doxygen found and available"] }, true)
  | .error _ => ({ st with logs := st.logs ++ ["Doxygen not found in PATH"] }, false)

/-- validateInputs (index.ts lines 49-74): probe doxygen (fail DoxygenNotFound
and return), then when the custom flag and a truthy path are both present
check existence of the resolved path (fail ConfigFileNotFound and return),
then when the custom flag is set without a truthy path report the
missing-path error and return, finally ensure the output directory (the
only step that can reject, propagating to the caller).  Each failure is
reported with tl.setResult and a plain return; the Except value is the
promise outcome of the method itself. -/
def validateInputs (env : Env) (inputs : TaskInputs) (st : ProcState) :
    ProcState × Except String Unit :=
  let (st, avail) := checkDoxygenInstallation env st
  if !avail then
    ({ st with results := st.results ++ [(TaskResult.Failed, tlLoc "DoxygenNotFound" [])] },
      Except.ok ())
  else
    let afterExistsCheck : ProcState → ProcState × Except String Unit := fun st =>
      if inputs.useCustomDoxyFile && !strTruthy inputs.customDoxyFilePath then
        ({ st with results := st.results ++
            [(TaskResult.Failed,
              "Custom Doxyfile path is required when using custom configuration file option")] },
          Except.ok ())
      else
        match env.ensureDir with
        | .error e => (st, Except.error e)
        | .ok _ => (st, Except.ok ())
    if inputs.useCustomDoxyFile && strTruthy inputs.customDoxyFilePath then
      let configPath :=
        pathResolve inputs.sourceDirectory (inputs.customDoxyFilePath.getD "")
      if !env.pathExists then
        ({ st with results := st.results ++
            [(TaskResult.Failed, tlLoc "ConfigFileNotFound" [configPath])] },
          Except.ok ())
      else
        afterExistsCheck st
    else
      afterExistsCheck st

/-- The catch handler of generateDocumentation (index.ts lines 129-132):
report the failure result and rethrow the error. -/
def genFail (st : ProcState) (e : String) : ProcState × Except String Unit :=
  ({ st with results := st.results ++
      [(TaskResult.Failed, "Failed to generate documentation: " ++ e)] },
    Except.error e)

/-- Continuation of generateDocumentation after the configuration text is
resolved (index.ts lines 108-127): write the temporary configuration file at
Doxyfile.tmp in the current directory, run doxygen on it, log stdout and warn
on stderr, remove the temporary file, restore the recorded working directory,
and log the final message.  Every rejection falls into the catch handler. -/
def genDocCont (env : Env) (inputs : TaskInputs) (originalCwd : String)
    (st : ProcState) (configContent : String) : ProcState × Except String Unit :=
  let tempConfigPath := joinPath st.cwd "Doxyfile.tmp"
  match env.writeFile with
  | .error e => genFail st e
  | .ok _ =>
    let st := { st with tempFileExists := true,
                        writes := st.writes ++ [(tempConfigPath, configContent)] }
    let st := { st with execCalls := st.execCalls ++
                        ["doxygen \"" ++ tempConfigPath ++ "\""] }
    match env.execDoxygen with
    | .error e => genFail st e
    | .ok (stdout, stderr) =>
      let st := { st with logs := st.logs ++
        (if stdout.isEmpty then [] else ["Doxygen output: " ++ stdout]) }
      let st := { st with warnings := st.warnings ++
        (if stderr.isEmpty then [] else ["Doxygen warnings: " ++ stderr]) }
      match env.removeTemp with
      | .error e => genFail st e
      | .ok _ =>
        let st := { st with tempFileExists := false }
        match env.chdirBack with
        | .error e => genFail st e
        | .ok _ =>
          let st := { st with cwd := originalCwd }
          ({ st with logs := st.logs ++
              [tlLoc "DocumentationGenerated" [inputs.outputDirectory]] },
            Except.ok ())

/-- generateDocumentation (index.ts lines 76-133): log the configuration,
record the current working directory, change into the source directory,
resolve the configuration text (custom file patched, or the auto template),
and continue with the write/run/cleanup sequence.  The catch handler reports
a Failed result and rethrows; note that the temp-file removal and the
directory restoration sit inside the try block before the catch. -/
def generateDocumentation (env : Env) (inputs : TaskInputs) (st : ProcState) :
    ProcState × Except String Unit :=
  let st := { st with logs := st.logs ++
    ["Generating documentation for project: " ++ inputs.projectName,
     "Project version: " ++ optShow inputs.projectVersion,
     "Source directory: " ++ inputs.sourceDirectory,
     "Output directory: " ++ inputs.outputDirectory,
     "Source file pattern: " ++ inputs.sourceFilePattern] }
  let originalCwd := st.cwd
  match env.chdirSource with
  | .error e => genFail st e
  | .ok _ =>
    let st := { st with cwd := inputs.sourceDirectory }
    if inputs.useCustomDoxyFile && strTruthy inputs.customDoxyFilePath then
      let st := { st with logs := st.logs ++
        ["Using custom Doxyfile: " ++ optShow inputs.customDoxyFilePath] }
      let configPath := pathResolve st.cwd (inputs.customDoxyFilePath.getD "")
      let st := { st with reads := st.reads ++ [configPath] }
      match env.readFile with
      | .error e => genFail st e
      | .ok content =>
        genDocCont env inputs originalCwd st
          (replaceOutputDirectory content inputs.outputDirectory)
    else
      let st := { st with logs := st.logs ++
        ["Generating automatic Doxygen configuration..."] }
      genDocCont env inputs originalCwd st (generateAutoDoxyfile inputs)

/-- publishArtifacts (index.ts lines 194-210): log, upload the output
directory under the fixed artifact name, and log success; any rejection is
caught and logged as a warning, so the method never raises and never records
a host result. -/
def publishArtifacts (env : Env) (inputs : TaskInputs) (st : ProcState) : ProcState :=
  let artifactName := "documentation"
  let st := { st with logs := st.logs ++ [tlLoc "PublishingArtifacts" [artifactName]] }
  match env.upload with
  | .ok _ =>
    let st := { st with uploads := st.uploads ++
      [(artifactName, inputs.outputDirectory, artifactName)] }
    { st with logs := st.logs ++
      ["Documentation artifacts published successfully as: " ++ artifactName] }
  | .error e =>
    { st with warnings := st.warnings ++ ["Failed to publish artifacts: " ++ e] }

/-- The catch handler of run (index.ts lines 223-226): log the failure and
record the outer Failed result. -/
def runCatch (st : ProcState) (e : String) : ProcState :=
  { st with logs := st.logs ++ ["Task failed: " ++ e],
            results := st.results ++ [(TaskResult.Failed, "Task failed: " ++ e)] }

/-- run (index.ts lines 212-227): validate, generate, publish, then record
the Succeeded result; any error thrown along the way lands in the catch
handler.  validateInputs reports its failures without throwing, so run
proceeds to the generation step after a reported validation failure. -/
def run (env : Env) (inputs : TaskInputs) (st : ProcState) : ProcState :=
  let st1 := { st with logs := st.logs ++
    ["Starting Doxygen documentation generation task..."] }
  let v := validateInputs env inputs st1
  match v.2 with
  | .error e => runCatch v.1 e
  | .ok _ =>
    let g := generateDocumentation env inputs v.1
    match g.2 with
    | .error e => runCatch g.1 e
    | .ok _ =>
      let st2 := publishArtifacts env inputs g.1
      let st3 := { st2 with logs := st2.logs ++
        ["Documentation generation task completed successfully"] }
      { st3 with results := st3.results ++
        [(TaskResult.Succeeded, "Documentation generated successfully")] }

/-- All external operations that steer the control flow succeed; the upload
outcome is deliberately unconstrained because it never affects host results. -/
def cleanEnv (env : Env) : Prop :=
  (∃ o, env.doxygenVersion = Except.ok o) ∧ env.pathExists = true ∧
  env.ensureDir = Except.ok () ∧ env.chdirSource = Except.ok () ∧
  (∃ c, env.readFile = Except.ok c) ∧ env.writeFile = Except.ok () ∧
  (∃ o, env.execDoxygen = Except.ok o) ∧ env.removeTemp = Except.ok () ∧
  env.chdirBack = Except.ok ()

/-- Substring containment, stated on the underlying character lists. -/
def containsSub (s t : String) : Prop :=
  ∃ a b : List Char, s.data = a ++ t.data ++ b

/-- Fixture: the inputs resolved under the repository test suite defaults
(auto mode). -/
def inpAuto : TaskInputs :=
  ⟨"/test/source", "/test/output", "Test Project", some "1.0.0", "*.cpp *.h", false,
    some "/test/custom/doxyfile"⟩

/-- Fixture: custom-configuration mode selected without a path. -/
def inpCustomNoPath : TaskInputs :=
  ⟨"/test/source", "/test/output", "Test Project", some "1.0.0", "*.cpp *.h", true, none⟩

/-- Fixture: every external operation succeeds. -/
def envAllOk : Env :=
  ⟨Except.ok ("doxygen 1.9.1", ""), true, Except.ok (), Except.ok (),
   Except.ok "# Sample Doxyfile content\nOUTPUT_DIRECTORY = /old/path", Except.ok (),
   Except.ok ("Doxygen output", ""), Except.ok (), Except.ok (), Except.ok ()⟩

/-- Fixture: the version probe rejects (doxygen not installed); the real
doxygen invocation then also rejects. -/
def envProbeFail : Env :=
  ⟨Except.error "Error: Command not found", true, Except.ok (), Except.ok (),
   Except.ok "# Sample Doxyfile content\nOUTPUT_DIRECTORY = /old/path", Except.ok (),
   Except.error "Error: Command not found", Except.ok (), Except.ok (), Except.ok ()⟩

/-- Fixture: the probe succeeds but the real doxygen invocation rejects. -/
def envExecFail : Env :=
  ⟨Except.ok ("doxygen 1.9.1", ""), true, Except.ok (), Except.ok (),
   Except.ok "# Sample Doxyfile content\nOUTPUT_DIRECTORY = /old/path", Except.ok (),
   Except.error "Error: Doxygen failed", Except.ok (), Except.ok (), Except.ok ()⟩

/-- Fixture: everything succeeds but the artifact upload throws. -/
def envUploadFail : Env :=
  { envAllOk with upload := Except.error "Error: Upload failed" }

/-! ## Helper lemmas: list scanning primitives -/

theorem sp_some_iff (a l r : List Char) : stripPref a l = some r ↔ l = a ++ r := by
  induction a generalizing l with
  | nil => simp [stripPref]
  | cons x as ih =>
    cases l with
    | nil => simp [stripPref]
    | cons b bs =>
      by_cases hx : x = b
      · subst hx
        simp [stripPref, ih]
      · simp only [stripPref, if_neg hx, List.cons_append]
        constructor
        · intro h
          exact Option.noConfusion h
        · intro h
          exact absurd (List.cons.inj h).1.symm hx

theorem sp_self (a r : List Char) : stripPref a (a ++ r) = some r :=
  (sp_some_iff a (a ++ r) r).mpr rfl

theorem isPrefB_iff (a l : List Char) : isPrefB a l = true ↔ ∃ r, l = a ++ r := by
  induction a generalizing l with
  | nil => simp [isPrefB]
  | cons x as ih =>
    cases l with
    | nil => simp [isPrefB]
    | cons b bs =>
      simp only [isPrefB, Bool.and_eq_true, beq_iff_eq, ih, List.cons_append,
        List.cons.injEq]
      constructor
      · rintro ⟨hxb, r, hr⟩
        exact ⟨r, hxb.symm, hr⟩
      · rintro ⟨r, hbx, hr⟩
        exact ⟨hbx.symm, r, hr⟩

theorem isPrefB_append (a r : List Char) : isPrefB a (a ++ r) = true :=
  (isPrefB_iff a (a ++ r)).mpr ⟨r, rfl⟩

theorem append_eq_split {a b c d : List Char} (h : a ++ b = c ++ d)
    (hl : a.length ≤ c.length) : ∃ u, c = a ++ u ∧ b = u ++ d := by
  induction a generalizing c with
  | nil => exact ⟨c, rfl, by simpa using h⟩
  | cons x as ih =>
    cases c with
    | nil => simp at hl
    | cons y cs =>
      rw [List.cons_append, List.cons_append] at h
      have hxy : x = y := (List.cons.inj h).1
      have h' : as ++ b = cs ++ d := (List.cons.inj h).2
      have hl' : as.length ≤ cs.length := by
        simp only [List.length_cons] at hl
        omega
      obtain ⟨u, hu1, hu2⟩ := ih h' hl'
      exact ⟨u, by rw [hxy.symm, hu1, List.cons_append], hu2⟩

theorem tw_append_all {p : Char → Bool} {a : List Char} (b : List Char)
    (h : ∀ c ∈ a, p c = true) : (a ++ b).takeWhile p = a ++ b.takeWhile p := by
  induction a with
  | nil => simp
  | cons x xs ih =>
    have hx : p x = true := h x (by simp)
    rw [List.cons_append, List.takeWhile_cons_of_pos hx, List.cons_append,
      ih (fun c hc => h c (by simp [hc]))]

theorem dw_append_all {p : Char → Bool} {a : List Char} (b : List Char)
    (h : ∀ c ∈ a, p c = true) : (a ++ b).dropWhile p = b.dropWhile p := by
  induction a with
  | nil => simp
  | cons x xs ih =>
    have hx : p x = true := h x (by simp)
    rw [List.cons_append, List.dropWhile_cons_of_pos hx,
      ih (fun c hc => h c (by simp [hc]))]

theorem dw_append_ne {p : Char → Bool} {a : List Char} (b : List Char)
    (h : a.dropWhile p ≠ []) : (a ++ b).dropWhile p = a.dropWhile p ++ b := by
  induction a with
  | nil => simp at h
  | cons x xs ih =>
    by_cases hx : p x = true
    · rw [List.dropWhile_cons_of_pos hx] at h
      rw [List.cons_append, List.dropWhile_cons_of_pos hx,
        List.dropWhile_cons_of_pos hx, ih h]
    · rw [List.cons_append, List.dropWhile_cons_of_neg hx,
        List.dropWhile_cons_of_neg hx, List.cons_append]

theorem dw_head {p : Char → Bool} {l : List Char} {c : Char} {t : List Char}
    (h : l.dropWhile p = c :: t) : p c = false := by
  induction l with
  | nil => simp [List.dropWhile] at h
  | cons x xs ih =>
    by_cases hx : p x = true
    · rw [List.dropWhile_cons_of_pos hx] at h
      exact ih h
    · rw [List.dropWhile_cons_of_neg hx] at h
      have hxc : x = c := (List.cons.inj h).1
      subst hxc
      simpa using hx

theorem lsAfter_cons (ls : Bool) (c : Char) (cs : List Char) :
    lsAfter ls (c :: cs) = lsAfter (isLineTerm c) cs := rfl

theorem lsAfter_true {ls : Bool} {p : List Char} (h : lsAfter ls p = true) :
    p = [] ∨ ∃ q c, p = q ++ [c] ∧ isLineTerm c = true := by
  induction p generalizing ls with
  | nil => exact Or.inl rfl
  | cons a p' ih =>
    rcases ih (show lsAfter (isLineTerm a) p' = true by simpa [lsAfter_cons] using h) with h0 | ⟨q, c, hqc, hc⟩
    · subst h0
      right
      exact ⟨[], a, rfl, by simpa [lsAfter_cons, lsAfter] using h⟩
    · right
      exact ⟨a :: q, c, by rw [hqc, List.cons_append], hc⟩



theorem lit_cons : LIT = 'O' :: "UTPUT_DIRECTORY".toList := by decide

theorem lit_len : LIT.length = 16 := by decide

theorem sp_lit_nil : stripPref LIT [] = none := by decide

theorem lit_no_border : ∀ k, k < 16 → 0 < k → LIT.drop k ≠ LIT.take (16 - k) := by decide

theorem isJsWs_O : isJsWs 'O' = false := by decide

theorem isJsWs_eq : isJsWs '=' = false := by decide



theorem matchAt_nil (ls : Bool) : matchAt [] ls = none := by
  unfold matchAt
  cases ls <;> simp [sp_lit_nil]

theorem matchAt_some_parts {l : List Char} {ls : Bool} {m r : List Char}
    (h : matchAt l ls = some (m, r)) :
    ls = true ∧ ∃ r1 r3, stripPref LIT l = some r1 ∧
      r1.dropWhile isJsWs = '=' :: r3 := by
  unfold matchAt at h
  cases ls with
  | false => simp at h
  | true =>
    refine ⟨rfl, ?_⟩
    rw [if_pos rfl] at h
    cases hsp : stripPref LIT l with
    | none => rw [hsp] at h; simp at h
    | some r1 =>
      rw [hsp] at h
      have h' : (match r1.dropWhile isJsWs with
          | '=' :: r3 =>
            some (LIT ++ r1.takeWhile isJsWs ++
                '=' :: r3.takeWhile (fun c => !isLineTerm c),
              r3.dropWhile (fun c => !isLineTerm c))
          | _ => none) = some (m, r) := h
      clear h
      cases hdw : r1.dropWhile isJsWs with
      | nil => rw [hdw] at h'; simp at h'
      | cons c r3 =>
        rw [hdw] at h'
        by_cases hc : c = '='
        · subst hc
          exact ⟨r1, r3, rfl, hdw⟩
        · exfalso
          revert h'
          split
          · rename_i heq
            exact fun _ => hc (List.cons.inj heq.symm).1.symm
          · intro h'
            exact Option.noConfusion h'



theorem matchAt_some {l : List Char} {ls : Bool} {m r : List Char}
    (h : matchAt l ls = some (m, r)) :
    ls = true ∧ l = m ++ r ∧
    (∃ ws body, m = LIT ++ ws ++ '=' :: body ∧ (∀ c ∈ ws, isJsWs c = true) ∧
      (∀ c ∈ body, isLineTerm c = false)) ∧
    (r = [] ∨ ∃ c t, r = c :: t ∧ isLineTerm c = true) := by
  obtain ⟨hls, r1, r3, hsp, hdw⟩ := matchAt_some_parts h
  subst hls
  have hml : matchAt l true =
      some (LIT ++ r1.takeWhile isJsWs ++
          '=' :: r3.takeWhile (fun c => !isLineTerm c),
        r3.dropWhile (fun c => !isLineTerm c)) := by
    unfold matchAt
    rw [if_pos rfl, hsp]
    have hred : (match r1.dropWhile isJsWs with
        | '=' :: r3 =>
          some (LIT ++ r1.takeWhile isJsWs ++
              '=' :: r3.takeWhile (fun c => !isLineTerm c),
            r3.dropWhile (fun c => !isLineTerm c))
        | _ => none) =
        some (LIT ++ r1.takeWhile isJsWs ++
            '=' :: r3.takeWhile (fun c => !isLineTerm c),
          r3.dropWhile (fun c => !isLineTerm c)) := by
      rw [hdw]
      rfl
    exact hred
  rw [h] at hml
  have hm : m = LIT ++ r1.takeWhile isJsWs ++
      '=' :: r3.takeWhile (fun c => !isLineTerm c) :=
    (Prod.mk.inj (Option.some.inj hml)).1
  have hr : r = r3.dropWhile (fun c => !isLineTerm c) :=
    (Prod.mk.inj (Option.some.inj hml)).2
  refine ⟨rfl, ?_, ?_, ?_⟩
  · have hl : l = LIT ++ r1 := (sp_some_iff _ _ _).mp hsp
    have hr1 : r1 = r1.takeWhile isJsWs ++ '=' :: r3 := by
      conv_lhs => rw [← List.takeWhile_append_dropWhile (p := isJsWs) (l := r1)]
      rw [hdw]
    have hr3 : r3 = r3.takeWhile (fun c => !isLineTerm c) ++
        r3.dropWhile (fun c => !isLineTerm c) :=
      (List.takeWhile_append_dropWhile _ _).symm
    rw [hl, hm, hr]
    conv_lhs => rw [hr1]
    conv_lhs => rw [hr3]
    simp [List.append_assoc]
  · exact ⟨r1.takeWhile isJsWs, r3.takeWhile (fun c => !isLineTerm c), hm,
      fun c hc => List.mem_takeWhile_imp hc,
      fun c hc => by simpa using List.mem_takeWhile_imp hc⟩
  · rw [hr]
    cases hcase : r3.dropWhile (fun c => !isLineTerm c) with
    | nil => exact Or.inl rfl
    | cons c t =>
      right
      refine ⟨c, t, rfl, ?_⟩
      have := dw_head hcase
      simpa using this

theorem matchAt_of_parts {l r1 r3 : List Char} (hsp : stripPref LIT l = some r1)
    (hdw : r1.dropWhile isJsWs = '=' :: r3) :
    matchAt l true =
      some (LIT ++ r1.takeWhile isJsWs ++
          '=' :: r3.takeWhile (fun c => !isLineTerm c),
        r3.dropWhile (fun c => !isLineTerm c)) := by
  unfold matchAt
  rw [if_pos rfl, hsp]
  have hred : (match r1.dropWhile isJsWs with
      | '=' :: r3 =>
        some (LIT ++ r1.takeWhile isJsWs ++
            '=' :: r3.takeWhile (fun c => !isLineTerm c),
          r3.dropWhile (fun c => !isLineTerm c))
      | _ => none) =
      some (LIT ++ r1.takeWhile isJsWs ++
          '=' :: r3.takeWhile (fun c => !isLineTerm c),
        r3.dropWhile (fun c => !isLineTerm c)) := by
    rw [hdw]
    rfl
  exact hred

theorem matchAt_congr {t X₁ X₂ : List Char} {ls : Bool}
    (ht : t ≠ []) (h1 : ∃ z, X₁ = LIT ++ z) (h2 : ∃ z, X₂ = LIT ++ z)
    (hn : matchAt (t ++ X₁) ls = none) : matchAt (t ++ X₂) ls = none := by
  obtain ⟨z1, hz1⟩ := h1
  obtain ⟨z2, hz2⟩ := h2
  cases hm : matchAt (t ++ X₂) ls with
  | none => rfl
  | some v =>
    exfalso
    obtain ⟨m, r⟩ := v
    obtain ⟨hls, r1, r3, hsp, hdw⟩ := matchAt_some_parts hm
    subst hls
    have heq : t ++ X₂ = LIT ++ r1 := (sp_some_iff _ _ _).mp hsp
    by_cases hlen : LIT.length ≤ t.length
    · obtain ⟨u, hu1, hu2⟩ := append_eq_split heq.symm hlen
      subst hu2
      by_cases hud : u.dropWhile isJsWs = []
      · have hall : ∀ c ∈ u, isJsWs c = true := List.dropWhile_eq_nil_iff.mp hud
        rw [dw_append_all X₂ hall, hz2, lit_cons, List.cons_append,
          List.dropWhile_cons_of_neg (by simp [isJsWs_O])] at hdw
        exact absurd (List.cons.inj hdw).1 (by decide)
      · rw [dw_append_ne X₂ hud] at hdw
        obtain ⟨c, u', hu'⟩ : ∃ c u', u.dropWhile isJsWs = c :: u' := by
          cases hcase : u.dropWhile isJsWs with
          | nil => exact absurd hcase hud
          | cons c u' => exact ⟨c, u', rfl⟩
        rw [hu', List.cons_append] at hdw
        have hc : c = '=' := (List.cons.inj hdw).1
        have hsp1 : stripPref LIT (t ++ X₁) = some (u ++ X₁) := by
          rw [hu1, List.append_assoc]
          exact sp_self _ _
        have hdw1 : (u ++ X₁).dropWhile isJsWs = '=' :: (u' ++ X₁) := by
          rw [dw_append_ne X₁ hud, hu', hc, List.cons_append]
        have hres := matchAt_of_parts hsp1 hdw1
        rw [hn] at hres
        exact Option.noConfusion hres
    · push_neg at hlen
      obtain ⟨u, hu1, hu2⟩ := append_eq_split heq (le_of_lt hlen)
      have h3 : u ++ r1 = (t ++ u) ++ z2 := by rw [← hu2, hz2, hu1]
      have hlu : u.length ≤ (t ++ u).length := by
        simp only [List.length_append]
        omega
      obtain ⟨v, hv1, hv2⟩ := append_eq_split h3 hlu
      have hLITuv : LIT = u ++ v := hu1.trans hv1
      have hdrop : LIT.drop t.length = u := by rw [hu1, List.drop_left]
      have htake : LIT.take u.length = u := by
        rw [hLITuv]
        exact List.take_left u v
      have hL16 : LIT.length = 16 := lit_len
      have hlenu : t.length + u.length = 16 := by
        have hc := congrArg List.length hu1
        simp only [List.length_append] at hc
        omega
      have htne : 0 < t.length := List.length_pos.mpr ht
      have hnb := lit_no_border t.length (by omega) htne
      rw [hdrop] at hnb
      rw [show 16 - t.length = u.length by omega] at hnb
      exact hnb htake.symm



theorem scan_sound {l : List Char} {ls : Bool} {p m r : List Char}
    (h : scan l ls = some (p, m, r)) :
    l = p ++ m ++ r ∧ matchAt (m ++ r) (lsAfter ls p) = some (m, r) ∧
      ∀ q t, p = q ++ t → t ≠ [] → matchAt (t ++ (m ++ r)) (lsAfter ls q) = none := by
  induction l generalizing ls p with
  | nil =>
    unfold scan at h
    rw [matchAt_nil] at h
    have h2 : (none : Option (List Char × List Char × List Char)) = some (p, m, r) := h
    exact Option.noConfusion h2
  | cons c cs ih =>
    unfold scan at h
    cases hm : matchAt (c :: cs) ls with
    | some v =>
      obtain ⟨m0, r0⟩ := v
      rw [hm] at h
      have h2 : (some ([], m0, r0) : Option (List Char × List Char × List Char)) =
          some (p, m, r) := h
      have h4 := Option.some.inj h2
      have hp : ([] : List Char) = p := (Prod.mk.inj h4).1
      have hm0 : m0 = m := (Prod.mk.inj (Prod.mk.inj h4).2).1
      have hr0 : r0 = r := (Prod.mk.inj (Prod.mk.inj h4).2).2
      subst hm0
      subst hr0
      subst hp
      obtain ⟨hls, hlmr, _, _⟩ := matchAt_some hm
      refine ⟨by simpa using hlmr, ?_, ?_⟩
      · rw [show lsAfter ls [] = ls from rfl, ← hlmr]
        exact hm
      · intro q t hqt htne
        exact absurd (List.append_eq_nil.mp hqt.symm).2 htne
    | none =>
      rw [hm] at h
      have h2 : (match scan cs (isLineTerm c) with
          | some (p, m, r) => some (c :: p, m, r)
          | none => none) = some (p, m, r) := h
      clear h
      cases hs : scan cs (isLineTerm c) with
      | none =>
        rw [hs] at h2
        have h3 : (none : Option (List Char × List Char × List Char)) = some (p, m, r) := h2
        exact Option.noConfusion h3
      | some w =>
        obtain ⟨p', m', r'⟩ := w
        rw [hs] at h2
        have h3 : (some (c :: p', m', r') : Option (List Char × List Char × List Char)) =
            some (p, m, r) := h2
        have h4 := Option.some.inj h3
        have hp : c :: p' = p := (Prod.mk.inj h4).1
        have hm2 : m = m' := ((Prod.mk.inj (Prod.mk.inj h4).2).1).symm
        have hr2 : r = r' := ((Prod.mk.inj (Prod.mk.inj h4).2).2).symm
        subst hm2
        subst hr2
        subst hp
        obtain ⟨hcs, hmatch, hmin⟩ := ih hs
        refine ⟨by simp [hcs], ?_, ?_⟩
        · rw [lsAfter_cons]
          exact hmatch
        · intro q t hqt htne
          cases q with
          | nil =>
            have ht : t = c :: p' := by simpa using hqt.symm
            subst ht
            rw [show lsAfter ls [] = ls from rfl]
            rw [show (c :: p') ++ (m ++ r) = c :: cs from by simp [hcs]]
            exact hm
          | cons a q' =>
            have h5 := hqt
            rw [List.cons_append] at h5
            have ha : c = a := (List.cons.inj h5).1
            have hq' : p' = q' ++ t := (List.cons.inj h5).2
            subst ha
            rw [lsAfter_cons]
            exact hmin q' t hq' htne

theorem scan_of_parts {p X : List Char} {ls : Bool} {m' r' : List Char}
    (hmin : ∀ q t, p = q ++ t → t ≠ [] → matchAt (t ++ X) (lsAfter ls q) = none)
    (hhit : matchAt X (lsAfter ls p) = some (m', r')) :
    scan (p ++ X) ls = some (p, m', r') := by
  induction p generalizing ls with
  | nil =>
    rw [show lsAfter ls [] = ls from rfl] at hhit
    rw [List.nil_append]
    cases X with
    | nil =>
      rw [matchAt_nil] at hhit
      exact Option.noConfusion hhit
    | cons c cs =>
      show (match matchAt (c :: cs) ls with
        | some (m, r) => some ([], m, r)
        | none =>
          match scan cs (isLineTerm c) with
          | some (p, m, r) => some (c :: p, m, r)
          | none => none) = some ([], m', r')
      rw [hhit]
  | cons c p' ih =>
    have h0 : matchAt ((c :: p') ++ X) (lsAfter ls []) = none :=
      hmin [] (c :: p') rfl (by simp)
    rw [show lsAfter ls [] = ls from rfl] at h0
    rw [List.cons_append] at h0
    have hrec : scan (p' ++ X) (isLineTerm c) = some (p', m', r') := by
      apply ih
      · intro q t hqt htne
        have hq := hmin (c :: q) t (by rw [hqt, List.cons_append]) htne
        rw [lsAfter_cons] at hq
        exact hq
      · rw [← lsAfter_cons ls c p']
        exact hhit
    rw [List.cons_append]
    show (match matchAt (c :: (p' ++ X)) ls with
      | some (m, r) => some ([], m, r)
      | none =>
        match scan (p' ++ X) (isLineTerm c) with
        | some (p, m, r) => some (c :: p, m, r)
        | none => none) = some (c :: p', m', r')
    rw [h0]
    show (match scan (p' ++ X) (isLineTerm c) with
      | some (p, m, r) => some (c :: p, m, r)
      | none => none) = some (c :: p', m', r')
    rw [hrec]



theorem toList_eq_data (s : String) : s.toList = s.data := rfl

theorem toList_append (s t : String) : (s ++ t).toList = s.toList ++ t.toList := by
  rw [toList_eq_data, toList_eq_data, toList_eq_data, String.data_append]

theorem matchAt_tmpl {out r : List Char}
    (hout : ∀ c ∈ out, isLineTerm c = false)
    (hr : r = [] ∨ ∃ c t, r = c :: t ∧ isLineTerm c = true) :
    matchAt ((LIT ++ ' ' :: '=' :: ' ' :: out) ++ r) true =
      some (LIT ++ ' ' :: '=' :: ' ' :: out, r) := by
  have hsp : stripPref LIT ((LIT ++ ' ' :: '=' :: ' ' :: out) ++ r) =
      some (' ' :: '=' :: ' ' :: (out ++ r)) := by
    rw [List.append_assoc]
    exact sp_self _ _
  have hdw : (' ' :: '=' :: ' ' :: (out ++ r)).dropWhile isJsWs =
      '=' :: (' ' :: (out ++ r)) := by
    rw [List.dropWhile_cons_of_pos (by decide), List.dropWhile_cons_of_neg (by decide)]
  have hres := matchAt_of_parts hsp hdw
  rw [hres]
  have houtq : ∀ c ∈ out, (fun c => !isLineTerm c) c = true := by
    intro c hc
    simp [hout c hc]
  have htw : (' ' :: '=' :: ' ' :: (out ++ r)).takeWhile isJsWs = [' '] := by
    rw [List.takeWhile_cons_of_pos (by decide), List.takeWhile_cons_of_neg (by decide)]
  have hrtw : r.takeWhile (fun c => !isLineTerm c) = [] := by
    rcases hr with rfl | ⟨c, t, rfl, hc⟩
    · rfl
    · rw [List.takeWhile_cons_of_neg (by simp [hc])]
  have hrdw : r.dropWhile (fun c => !isLineTerm c) = r := by
    rcases hr with rfl | ⟨c, t, rfl, hc⟩
    · rfl
    · rw [List.dropWhile_cons_of_neg (by simp [hc])]
  have hbody : (' ' :: (out ++ r)).takeWhile (fun c => !isLineTerm c) = ' ' :: out := by
    rw [List.takeWhile_cons_of_pos (by decide), tw_append_all r houtq, hrtw,
      List.append_nil]
  have hdrop : (' ' :: (out ++ r)).dropWhile (fun c => !isLineTerm c) = r := by
    rw [List.dropWhile_cons_of_pos (by decide), dw_append_all r houtq, hrdw]
  rw [htw, hbody, hdrop]
  simp

theorem getSubst_no_dollar {m p s : List Char} {t : List Char}
    (h : ∀ c ∈ t, c ≠ '$') : getSubst m p s t = t := by
  induction t with
  | nil => rfl
  | cons c rest ih =>
    have hc : c ≠ '$' := h c (by simp)
    have ih' := ih (fun d hd => h d (by simp [hd]))
    rw [getSubst.eq_def]
    split
    next heq => exact absurd heq (by simp)
    next heq => exact absurd (List.cons.inj heq).1 hc
    next d rest' heq => exact absurd (List.cons.inj heq).1 hc
    next cc rr hn1 hn2 heq =>
      have hcc : c = cc := (List.cons.inj heq).1
      have hrr : rest = rr := (List.cons.inj heq).2
      subst hcc
      subst hrr
      rw [ih']



theorem scan_replace {content out : List Char} {p m r : List Char}
    (h : scan content true = some (p, m, r))
    (hout : ∀ c ∈ out, isLineTerm c = false) :
    scan (p ++ ((LIT ++ ' ' :: '=' :: ' ' :: out) ++ r)) true =
      some (p, LIT ++ ' ' :: '=' :: ' ' :: out, r) := by
  obtain ⟨hsplit, hmatch, hmin⟩ := scan_sound h
  obtain ⟨hls, _, ⟨ws, body, hm, _, _⟩, hr⟩ := matchAt_some hmatch
  apply scan_of_parts
  · intro q t hqt htne
    have hold := hmin q t hqt htne
    refine matchAt_congr htne ⟨ws ++ ('=' :: body) ++ r, ?_⟩
      ⟨' ' :: '=' :: ' ' :: (out ++ r), ?_⟩ hold
    · rw [hm]
      simp [List.append_assoc]
    · simp [List.append_assoc]
  · rw [hls]
    exact matchAt_tmpl hout hr

theorem replace_eq_of_scan {content out : String} {p m r : List Char}
    (h : scan content.toList true = some (p, m, r))
    (hd : ∀ c ∈ out.toList, c ≠ '$') :
    (replaceOutputDirectory content out).toList =
      p ++ ("OUTPUT_DIRECTORY = " ++ out).toList ++ r := by
  have hnd : ∀ c ∈ ("OUTPUT_DIRECTORY = " ++ out).toList, c ≠ '$' := by
    intro c hc
    rw [toList_append] at hc
    rcases List.mem_append.mp hc with h1 | h2
    · have hfix : ∀ x ∈ "OUTPUT_DIRECTORY = ".toList, x ≠ '$' := by decide
      exact hfix c h1
    · exact hd c h2
  unfold replaceOutputDirectory
  rw [h]
  show (String.mk (p ++ getSubst m p r ("OUTPUT_DIRECTORY = " ++ out).toList ++ r)).toList =
    p ++ ("OUTPUT_DIRECTORY = " ++ out).toList ++ r
  rw [getSubst_no_dollar hnd]
  rfl

theorem tmpl_toList (out : String) :
    ("OUTPUT_DIRECTORY = " ++ out).toList = LIT ++ ' ' :: '=' :: ' ' :: out.toList := by
  rw [toList_append]
  have hfix : "OUTPUT_DIRECTORY = ".toList = LIT ++ [' ', '=', ' '] := by decide
  rw [hfix, List.append_assoc]
  rfl



/-- C5 (amended).  The custom-mode patch replaces only the first match of
the pattern with the text OUTPUT_DIRECTORY = out (when the output directory
contains no dollar character and no line terminator): the text before and
after the matched region is preserved verbatim, the matched region begins at
a line start and ends at a line end and begins with the literal
OUTPUT_DIRECTORY, a text without a match is returned unchanged, and the
patch is idempotent.  (The matched region is not always a single line: the
whitespace admitted between the key and the equals sign may span line
breaks.) -/
theorem C5_custom_patch (content out : String)
    (hterm : ∀ c ∈ out.toList, isLineTerm c = false)
    (hdollar : ∀ c ∈ out.toList, c ≠ '$') :
    replaceOutputDirectory (replaceOutputDirectory content out) out =
      replaceOutputDirectory content out ∧
    (scan content.toList true = none → replaceOutputDirectory content out = content) ∧
    ∀ p m r, scan content.toList true = some (p, m, r) →
      (replaceOutputDirectory content out).toList =
        p ++ ("OUTPUT_DIRECTORY = " ++ out).toList ++ r ∧
      (p = [] ∨ ∃ q c, p = q ++ [c] ∧ isLineTerm c = true) ∧
      (r = [] ∨ ∃ c t, r = c :: t ∧ isLineTerm c = true) ∧
      isPrefB LIT m = true := by
  refine ⟨?_, ?_, ?_⟩
  · cases h : scan content.toList true with
    | none =>
      have hid : replaceOutputDirectory content out = content := by
        unfold replaceOutputDirectory
        rw [h]
      rw [hid, hid]
    | some v =>
      obtain ⟨p, m, r⟩ := v
      have h1 := replace_eq_of_scan h hdollar
      have h2 : scan (replaceOutputDirectory content out).toList true =
          some (p, LIT ++ ' ' :: '=' :: ' ' :: out.toList, r) := by
        rw [h1, tmpl_toList, List.append_assoc]
        exact scan_replace h hterm
      have h4 := replace_eq_of_scan h2 hdollar
      apply String.ext
      rw [← toList_eq_data, ← toList_eq_data, h4, h1]
  · intro h
    unfold replaceOutputDirectory
    rw [h]
  · intro p m r h
    obtain ⟨hsplit, hmatch, hmin⟩ := scan_sound h
    obtain ⟨hls, _, ⟨ws, body, hm, _, _⟩, hr⟩ := matchAt_some hmatch
    refine ⟨replace_eq_of_scan h hdollar, lsAfter_true hls, hr, ?_⟩
    rw [hm]
    exact (isPrefB_iff _ _).mpr ⟨ws ++ '=' :: body, by simp [List.append_assoc]⟩

/-- Witness for C5: the patch applied to a two-line configuration file is
idempotent at a concrete output directory. -/
theorem C5_custom_patch_witness :
    replaceOutputDirectory
        (replaceOutputDirectory
          "# Sample Doxyfile content\nOUTPUT_DIRECTORY = /old/path" "/test/output")
        "/test/output" =
      replaceOutputDirectory
        "# Sample Doxyfile content\nOUTPUT_DIRECTORY = /old/path" "/test/output" :=
  (C5_custom_patch "# Sample Doxyfile content\nOUTPUT_DIRECTORY = /old/path"
    "/test/output" (by decide) (by decide)).1

/-- C5 counterexample: the claim that the patch replaces only the first
matching line and leaves every other line of the text unchanged is false.
The JS whitespace class in the pattern includes line terminators, so the
first match may span a line break: on the three-line input below the first
match covers the two lines OUTPUT_DIRECTORY and = old, the patch collapses
them into a single replaced line, and the untouched non-matching line = old
is gone from the output, which has two lines instead of three. -/
theorem C5_counterexample :
    replaceOutputDirectory "OUTPUT_DIRECTORY\n= old\nA = B" "/out" =
      "OUTPUT_DIRECTORY = /out\nA = B" ∧
    strLines "OUTPUT_DIRECTORY\n= old\nA = B" = ["OUTPUT_DIRECTORY", "= old", "A = B"] ∧
    strLines "OUTPUT_DIRECTORY = /out\nA = B" = ["OUTPUT_DIRECTORY = /out", "A = B"] := by
  refine ⟨?_, ?_, ?_⟩ <;> decide


/-- The write/run/cleanup continuation only appends to the logs. -/
theorem genDocCont_logs_mono (env : Env) (inputs : TaskInputs) (ocwd : String)
    (st : ProcState) (cfg : String) {x : String} (hx : x ∈ st.logs) :
    x ∈ (genDocCont env inputs ocwd st cfg).1.logs := by
  obtain ⟨dv, pe, ed, cs, rf, wf, ex, rt, cb, up⟩ := env
  rcases wf with e | u
  · simp [genDocCont, genFail, hx]
  · rcases ex with e | ⟨so, se⟩
    · simp [genDocCont, genFail, hx]
    · rcases rt with e | u2
      · simp [genDocCont, genFail, hx]
      · rcases cb with e | u3
        · simp [genDocCont, genFail, hx]
        · simp [genDocCont, genFail, hx]

/-- generateDocumentation always logs its opening line, whatever the
environment outcomes. -/
theorem gen_log_mem (env : Env) (inputs : TaskInputs) (st : ProcState) :
    ("Generating documentation for project: " ++ inputs.projectName) ∈
      (generateDocumentation env inputs st).1.logs := by
  rcases hcs : env.chdirSource with e | u
  · simp [generateDocumentation, genFail, hcs]
  · by_cases hb : (inputs.useCustomDoxyFile && strTruthy inputs.customDoxyFilePath) = true
    · rcases hrf : env.readFile with e | c
      · simp [generateDocumentation, genFail, hcs, hrf, hb]
      · simp only [generateDocumentation, hcs, hrf, hb, if_true]
        apply genDocCont_logs_mono
        simp
    · simp only [generateDocumentation, hcs, hb, if_false]
      apply genDocCont_logs_mono
      simp

/-- publishArtifacts only appends to the logs. -/
theorem publish_logs_mono (env : Env) (inputs : TaskInputs) (st : ProcState)
    {x : String} (hx : x ∈ st.logs) : x ∈ (publishArtifacts env inputs st).logs := by
  rcases hup : env.upload with e | u <;> simp [publishArtifacts, hup, hx]

/-- publishArtifacts never records a host result. -/
theorem publish_results (env : Env) (inputs : TaskInputs) (st : ProcState) :
    (publishArtifacts env inputs st).results = st.results := by
  rcases hup : env.upload with e | u <;> simp [publishArtifacts, hup]

/-- Every execution of run records at least one host result: each exit path
ends by appending either a Failed result in the catch handler or the final
Succeeded result. -/
theorem run_results_ne_nil (env : Env) (inputs : TaskInputs) (st : ProcState) :
    (run env inputs st).results ≠ [] := by
  unfold run
  rcases hv : (validateInputs env inputs
      { st with logs := st.logs ++ ["Starting Doxygen documentation generation task..."] }).2
    with e | u
  · simp [hv, runCatch]
  · rcases hg : (generateDocumentation env inputs
        (validateInputs env inputs
          { st with logs :=
            st.logs ++ ["Starting Doxygen documentation generation task..."] }).1).2
      with e | u2
    · simp [hv, hg, runCatch]
    · simp [hv, hg]


/-- Containment is preserved by prepending text. -/
theorem containsSub_right {s t : String} (u : String) (h : containsSub s t) :
    containsSub (u ++ s) t := by
  obtain ⟨a, b, hab⟩ := h
  exact ⟨u.data ++ a, b, by simp [String.data_append, hab, List.append_assoc]⟩

/-- Containment is preserved by appending text. -/
theorem containsSub_left {s t : String} (u : String) (h : containsSub s t) :
    containsSub (s ++ u) t := by
  obtain ⟨a, b, hab⟩ := h
  exact ⟨a, b ++ u.data, by simp [String.data_append, hab, List.append_assoc]⟩

/-- A string contains itself. -/
theorem containsSub_self (t : String) : containsSub t t :=
  ⟨[], [], by simp [containsSub]⟩

/-- When one of the three validation-failure conditions holds (probe down,
custom file missing, or custom path absent), validateInputs resolves normally
(no throw) and records exactly one Failed host result. -/
theorem validateInputs_failure_reports (env : Env) (inputs : TaskInputs)
    (hfail : doxygenOk env = false ∨
      (inputs.useCustomDoxyFile = true ∧ strTruthy inputs.customDoxyFilePath = true ∧
        env.pathExists = false) ∨
      (inputs.useCustomDoxyFile = true ∧ strTruthy inputs.customDoxyFilePath = false))
    (st : ProcState) :
    (validateInputs env inputs st).2 = Except.ok () ∧
    ∃ msg, (validateInputs env inputs st).1.results =
      st.results ++ [(TaskResult.Failed, msg)] := by
  rcases hdv : env.doxygenVersion with e | o
  · constructor
    · simp [validateInputs, checkDoxygenInstallation, hdv]
    · exact ⟨tlLoc "DoxygenNotFound" [],
        by simp [validateInputs, checkDoxygenInstallation, hdv]⟩
  · have hdo : doxygenOk env = true := by simp [doxygenOk, hdv]
    rcases hfail with hf | ⟨hu, htr, hpe⟩ | ⟨hu, htr⟩
    · rw [hdo] at hf
      exact absurd hf (by simp)
    · constructor
      · simp [validateInputs, checkDoxygenInstallation, hdv, hu, htr, hpe]
      · refine ⟨tlLoc "ConfigFileNotFound"
          [pathResolve inputs.sourceDirectory (inputs.customDoxyFilePath.getD "")], ?_⟩
        simp [validateInputs, checkDoxygenInstallation, hdv, hu, htr, hpe]
    · constructor
      · simp [validateInputs, checkDoxygenInstallation, hdv, hu, htr]
      · exact ⟨"Custom Doxyfile path is required when using custom configuration file option",
          by simp [validateInputs, checkDoxygenInstallation, hdv, hu, htr]⟩

/-- On a run where every control-flow-relevant external operation succeeds
and the custom-path invariant holds, exactly one host result is recorded:
Succeeded with the fixed success message. -/
theorem run_clean_results (env : Env) (inputs : TaskInputs) (st : ProcState)
    (hc : cleanEnv env)
    (hcust : inputs.useCustomDoxyFile = true → strTruthy inputs.customDoxyFilePath = true)
    (hres : st.results = []) :
    (run env inputs st).results =
      [(TaskResult.Succeeded, "Documentation generated successfully")] := by
  obtain ⟨⟨o, hdox⟩, hpe, hens, hchd, ⟨cc, hrf⟩, hwf, ⟨⟨so, se⟩, hex⟩, hrm, hcb⟩ := hc
  rcases hup : env.upload with e | uu <;>
  · by_cases hu : inputs.useCustomDoxyFile = true
    · have htr := hcust hu
      simp [run, validateInputs, checkDoxygenInstallation, generateDocumentation, genDocCont,
        publishArtifacts, runCatch, hdox, hpe, hens, hchd, hrf, hwf, hex, hrm, hcb, hup,
        hu, htr, hres]
    · simp [run, validateInputs, checkDoxygenInstallation, generateDocumentation, genDocCont,
        publishArtifacts, runCatch, hdox, hpe, hens, hchd, hrf, hwf, hex, hrm, hcb, hup,
        hu, hres]



/-- C1 (amended).  When validateInputs reports one of the three validation
failures (GeneratorNotFound, ConfigFileNotFound, MissingCustomConfigPath), it
returns normally with a single Failed result recorded — and run() still
proceeds to the generation step: generateDocumentation executes (its opening
log line is present in the logs of the completed run).  The task does NOT
halt after a reported validation failure, contrary to the claim. -/
theorem C1_validation_failure_still_generates (env : Env) (inputs : TaskInputs)
    (st : ProcState)
    (hfail : doxygenOk env = false ∨
      (inputs.useCustomDoxyFile = true ∧ strTruthy inputs.customDoxyFilePath = true ∧
        env.pathExists = false) ∨
      (inputs.useCustomDoxyFile = true ∧ strTruthy inputs.customDoxyFilePath = false)) :
    ((validateInputs env inputs st).2 = Except.ok () ∧
     ∃ msg, (validateInputs env inputs st).1.results =
       st.results ++ [(TaskResult.Failed, msg)]) ∧
    ("Generating documentation for project: " ++ inputs.projectName) ∈
      (run env inputs st).logs := by
  refine ⟨validateInputs_failure_reports env inputs hfail st, ?_⟩
  simp only [run]
  generalize ({ st with logs :=
    st.logs ++ ["Starting Doxygen documentation generation task..."] } : ProcState) = st1
  rcases hv : (validateInputs env inputs st1).2 with e | u
  · have hok := (validateInputs_failure_reports env inputs hfail st1).1
    rw [hv] at hok
    exact absurd hok (by simp)
  · simp only [hv]
    rcases hg : (generateDocumentation env inputs (validateInputs env inputs st1).1).2
      with e | u2
    · simp only [hg, runCatch, List.mem_append]
      exact Or.inl (gen_log_mem env inputs _)
    · simp only [hg, List.mem_append]
      exact Or.inl (publish_logs_mono env inputs _ (gen_log_mem env inputs _))



/-- Witness for C1 (amended) at a concrete input: probe fails, the failure
is recorded, and the generation step still runs. -/
theorem C1_witness :
    ((validateInputs envProbeFail inpAuto (initState "/original")).2 = Except.ok () ∧
     ∃ msg, (validateInputs envProbeFail inpAuto (initState "/original")).1.results =
       (initState "/original").results ++ [(TaskResult.Failed, msg)]) ∧
    ("Generating documentation for project: " ++ inpAuto.projectName) ∈
      (run envProbeFail inpAuto (initState "/original")).logs :=
  C1_validation_failure_still_generates envProbeFail inpAuto (initState "/original")
    (Or.inl (by decide))

/-- C1 counterexample.  With the generator probe failing, validateInputs
reports the GeneratorNotFound failure, yet run() still proceeds to the
generation step: the generation start is logged and the real doxygen
invocation is attempted (second entry of the exec trace).  This refutes
the claim that run() does not proceed to generation after a reported
validation failure. -/
theorem C1_counterexample :
    (validateInputs envProbeFail inpAuto (initState "/original")).1.results =
      [(TaskResult.Failed, "DoxygenNotFound: ")] ∧
    ("Generating documentation for project: Test Project" ∈
      (run envProbeFail inpAuto (initState "/original")).logs) ∧
    (run envProbeFail inpAuto (initState "/original")).execCalls =
      ["doxygen --version", "doxygen \"/test/source/Doxyfile.tmp\""] := by
  refine ⟨?_, ?_, ?_⟩ <;> decide

/-- C2 (amended).  When the generator subprocess invocation fails after the
working directory was changed and the temporary configuration file was
written, the failure handler records the Failed result and rethrows — but it
does NOT delete the temporary file and does NOT restore the original working
directory: cleanup and restoration sit inside the try block before the
subprocess failure exit, so on the failure path the temporary file still
exists and the working directory remains the source directory. -/
theorem C2_no_cleanup_on_failure (env : Env) (inputs : TaskInputs) (st : ProcState)
    (e cfg : String)
    (hchd : env.chdirSource = Except.ok ())
    (hrf : env.readFile = Except.ok cfg)
    (hwf : env.writeFile = Except.ok ())
    (hex : env.execDoxygen = Except.error e) :
    (generateDocumentation env inputs st).2 = Except.error e ∧
    (generateDocumentation env inputs st).1.tempFileExists = true ∧
    (generateDocumentation env inputs st).1.cwd = inputs.sourceDirectory ∧
    (generateDocumentation env inputs st).1.results =
      st.results ++ [(TaskResult.Failed, "Failed to generate documentation: " ++ e)] := by
  by_cases hb : (inputs.useCustomDoxyFile && strTruthy inputs.customDoxyFilePath) = true
  · refine ⟨?_, ?_, ?_, ?_⟩ <;>
      simp [generateDocumentation, genDocCont, genFail, hchd, hrf, hwf, hex, hb]
  · refine ⟨?_, ?_, ?_, ?_⟩ <;>
      simp [generateDocumentation, genDocCont, genFail, hchd, hwf, hex, hb]

/-- Witness for C2 (amended) at a concrete input: the subprocess rejects
and the state shows the temp file present and the directory unrestored. -/
theorem C2_witness :
    (generateDocumentation envExecFail inpAuto (initState "/original")).2 =
      Except.error "Error: Doxygen failed" ∧
    (generateDocumentation envExecFail inpAuto (initState "/original")).1.tempFileExists = true ∧
    (generateDocumentation envExecFail inpAuto (initState "/original")).1.cwd =
      inpAuto.sourceDirectory ∧
    (generateDocumentation envExecFail inpAuto (initState "/original")).1.results =
      (initState "/original").results ++
        [(TaskResult.Failed, "Failed to generate documentation: Error: Doxygen failed")] :=
  C2_no_cleanup_on_failure envExecFail inpAuto (initState "/original")
    "Error: Doxygen failed" "# Sample Doxyfile content\nOUTPUT_DIRECTORY = /old/path"
    rfl rfl rfl rfl

/-- C2 counterexample.  A concrete failing generator invocation: the
recorded working directory was /original, yet after the failure the
temporary file still exists and the working directory is still the source
directory — the claimed delete-and-restore before signaling does not
happen. -/
theorem C2_counterexample :
    (generateDocumentation envExecFail inpAuto (initState "/original")).2 =
      Except.error "Error: Doxygen failed" ∧
    (generateDocumentation envExecFail inpAuto (initState "/original")).1.tempFileExists = true ∧
    (generateDocumentation envExecFail inpAuto (initState "/original")).1.cwd =
      "/test/source" ∧
    (initState "/original").cwd = "/original" := by
  refine ⟨?_, ?_, ?_, ?_⟩ <;> decide

/-- C3 (amended).  Every task execution records at least one terminal host
result; a run in which validation reports nothing and generation succeeds
records exactly one — Succeeded with the fixed message.  (Failing runs may
record several Failed results; see the counterexample.) -/
theorem C3_terminal_calls (env : Env) (inputs : TaskInputs) (st : ProcState) :
    (run env inputs st).results ≠ [] ∧
    (cleanEnv env →
      (inputs.useCustomDoxyFile = true → strTruthy inputs.customDoxyFilePath = true) →
      st.results = [] →
      (run env inputs st).results =
        [(TaskResult.Succeeded, "Documentation generated successfully")]) :=
  ⟨run_results_ne_nil env inputs st, run_clean_results env inputs st⟩

/-- Witness for C3 (amended) at a concrete clean run: exactly one
Succeeded result. -/
theorem C3_witness :
    (run envAllOk inpAuto (initState "/original")).results ≠ [] ∧
    (run envAllOk inpAuto (initState "/original")).results =
      [(TaskResult.Succeeded, "Documentation generated successfully")] :=
  ⟨(C3_terminal_calls envAllOk inpAuto (initState "/original")).1,
   (C3_terminal_calls envAllOk inpAuto (initState "/original")).2
     ⟨⟨("doxygen 1.9.1", ""), rfl⟩, rfl, rfl, rfl, ⟨_, rfl⟩, rfl, ⟨_, rfl⟩, rfl, rfl⟩
     (by decide) rfl⟩

/-- C3 counterexample.  When the generator subprocess fails, the run makes
two terminal host-result calls (the generation handler records Failed and
rethrows, and the orchestrator catch records a second Failed), refuting
the exactly-one-terminal-call claim. -/
theorem C3_counterexample :
    (run envExecFail inpAuto (initState "/original")).results =
      [(TaskResult.Failed, "Failed to generate documentation: Error: Doxygen failed"),
       (TaskResult.Failed, "Task failed: Error: Doxygen failed")] ∧
    (run envExecFail inpAuto (initState "/original")).results.length ≠ 1 := by
  constructor <;> decide

/-- C4 (amended).  With useCustomDoxyFile set and no (truthy) custom path,
validateInputs records exactly one Failed result, but which one depends on
generator availability: the missing-path error when the probe succeeds, and
GeneratorNotFound when the probe fails — the probe short-circuits
validation, so the missing-path error is not independent of generator
availability. -/
theorem C4_missing_path_vs_probe (env : Env) (inputs : TaskInputs) (st : ProcState)
    (hu : inputs.useCustomDoxyFile = true)
    (ht : strTruthy inputs.customDoxyFilePath = false) :
    (validateInputs env inputs st).2 = Except.ok () ∧
    (validateInputs env inputs st).1.results = st.results ++
      [(TaskResult.Failed,
        if doxygenOk env then
          "Custom Doxyfile path is required when using custom configuration file option"
        else tlLoc "DoxygenNotFound" [])] := by
  rcases hdv : env.doxygenVersion with e | o
  · have hdo : doxygenOk env = false := by simp [doxygenOk, hdv]
    constructor <;> simp [validateInputs, checkDoxygenInstallation, hdv, hdo]
  · have hdo : doxygenOk env = true := by simp [doxygenOk, hdv]
    constructor <;> simp [validateInputs, checkDoxygenInstallation, hdv, hu, ht, hdo]

/-- Witness for C4 (amended) at a concrete input with the generator
available: the missing-path failure is recorded. -/
theorem C4_witness :
    (validateInputs envAllOk inpCustomNoPath (initState "/original")).2 = Except.ok () ∧
    (validateInputs envAllOk inpCustomNoPath (initState "/original")).1.results =
      (initState "/original").results ++
        [(TaskResult.Failed,
          if doxygenOk envAllOk then
            "Custom Doxyfile path is required when using custom configuration file option"
          else tlLoc "DoxygenNotFound" [])] :=
  C4_missing_path_vs_probe envAllOk inpCustomNoPath (initState "/original")
    (by decide) (by decide)

/-- C4 counterexample.  With useCustomDoxyFile true, no path, and a failing
generator probe, the reported failure is GeneratorNotFound and the
missing-path message is absent — refuting the claim that the missing-path
error is reported independently of generator availability. -/
theorem C4_counterexample :
    (validateInputs envProbeFail inpCustomNoPath (initState "/original")).1.results =
      [(TaskResult.Failed, "DoxygenNotFound: ")] ∧
    ¬ ((TaskResult.Failed,
        "Custom Doxyfile path is required when using custom configuration file option") ∈
      (validateInputs envProbeFail inpCustomNoPath (initState "/original")).1.results) := by
  constructor <;> decide



/-- C6.  For every resolved Task Configuration, the auto-mode generated
configuration text contains, verbatim, the project name as PROJECT_NAME, the
project version as PROJECT_NUMBER with 1.0 substituted whenever the version
is absent or empty, the exact source file pattern as FILE_PATTERNS, the
resolved source directory as INPUT, and the resolved output directory as
OUTPUT_DIRECTORY. -/
theorem C6_auto_config_contains (inputs : TaskInputs) :
    containsSub (generateAutoDoxyfile inputs)
      ("PROJECT_NAME           = \"" ++ inputs.projectName ++ "\"") ∧
    containsSub (generateAutoDoxyfile inputs)
      ("PROJECT_NUMBER         = \"" ++ orDefault inputs.projectVersion "1.0" ++ "\"") ∧
    ((inputs.projectVersion = none ∨ inputs.projectVersion = some "") →
      orDefault inputs.projectVersion "1.0" = "1.0") ∧
    containsSub (generateAutoDoxyfile inputs)
      ("FILE_PATTERNS          = " ++ inputs.sourceFilePattern) ∧
    containsSub (generateAutoDoxyfile inputs)
      ("INPUT                  = " ++ inputs.sourceDirectory) ∧
    containsSub (generateAutoDoxyfile inputs)
      ("OUTPUT_DIRECTORY       = " ++ inputs.outputDirectory) := by
  refine ⟨?_, ?_, ?_, ?_, ?_, ?_⟩
  · simp only [generateAutoDoxyfile]
    exact containsSub_right _ (containsSub_left _ (containsSub_self _))
  · simp only [generateAutoDoxyfile]
    exact containsSub_right _ (containsSub_right _ (containsSub_right _
      (containsSub_left _ (containsSub_self _))))
  · rintro (h | h) <;> rw [h] <;> decide
  · simp only [generateAutoDoxyfile]
    exact containsSub_right _ (containsSub_right _ (containsSub_right _
      (containsSub_right _ (containsSub_right _ (containsSub_right _
        (containsSub_right _ (containsSub_left _ (containsSub_self _))))))))
  · simp only [generateAutoDoxyfile]
    exact containsSub_right _ (containsSub_right _ (containsSub_right _
      (containsSub_right _ (containsSub_right _
        (containsSub_left _ (containsSub_self _))))))
  · simp only [generateAutoDoxyfile]
    exact containsSub_right _ (containsSub_right _ (containsSub_right _
      (containsSub_right _ (containsSub_right _ (containsSub_right _
        (containsSub_right _ (containsSub_right _ (containsSub_right _
          (containsSub_left _ (containsSub_self _))))))))))

/-- Witness for C6 at the scenario inputs of the spec: the five directives
appear verbatim in the generated text. -/
theorem C6_witness :
    containsSub (generateAutoDoxyfile inpAuto) "PROJECT_NAME           = \"Test Project\"" ∧
    containsSub (generateAutoDoxyfile inpAuto) "PROJECT_NUMBER         = \"1.0.0\"" ∧
    containsSub (generateAutoDoxyfile inpAuto) "FILE_PATTERNS          = *.cpp *.h" ∧
    containsSub (generateAutoDoxyfile inpAuto) "INPUT                  = /test/source" ∧
    containsSub (generateAutoDoxyfile inpAuto) "OUTPUT_DIRECTORY       = /test/output" := by
  have h := C6_auto_config_contains inpAuto
  obtain ⟨a, b, hab⟩ := h.1
  obtain ⟨a2, b2, hab2⟩ := h.2.1
  obtain ⟨a4, b4, hab4⟩ := h.2.2.2.1
  obtain ⟨a5, b5, hab5⟩ := h.2.2.2.2.1
  obtain ⟨a6, b6, hab6⟩ := h.2.2.2.2.2
  exact ⟨⟨a, b, by exact hab⟩, ⟨a2, b2, by exact hab2⟩, ⟨a4, b4, by exact hab4⟩,
    ⟨a5, b5, by exact hab5⟩, ⟨a6, b6, by exact hab6⟩⟩



/-- C7.  publishArtifacts never records a host result and, when the upload
throws, catches the error and logs a warning instead of uploading; the
overall run still resolves and a clean run still ends with the single
Succeeded result (publication failure never produces a Failed result).
publishArtifacts is total in the model — it cannot raise to its caller. -/
theorem C7_publish_best_effort (env : Env) (inputs : TaskInputs) (st : ProcState) :
    (publishArtifacts env inputs st).results = st.results ∧
    (∀ e, env.upload = Except.error e →
      (publishArtifacts env inputs st).warnings =
        st.warnings ++ ["Failed to publish artifacts: " ++ e] ∧
      (publishArtifacts env inputs st).uploads = st.uploads) ∧
    (cleanEnv env →
      (inputs.useCustomDoxyFile = true → strTruthy inputs.customDoxyFilePath = true) →
      st.results = [] →
      (run env inputs st).results =
        [(TaskResult.Succeeded, "Documentation generated successfully")]) := by
  refine ⟨publish_results env inputs st, ?_, run_clean_results env inputs st⟩
  intro e he
  constructor <;> simp [publishArtifacts, he]

/-- Witness for C7 at a concrete input with a throwing upload: the warning
is logged and the run ends Succeeded. -/
theorem C7_witness :
    (publishArtifacts envUploadFail inpAuto (initState "/original")).results =
      (initState "/original").results ∧
    (publishArtifacts envUploadFail inpAuto (initState "/original")).warnings =
      (initState "/original").warnings ++
        ["Failed to publish artifacts: Error: Upload failed"] ∧
    (run envUploadFail inpAuto (initState "/original")).results =
      [(TaskResult.Succeeded, "Documentation generated successfully")] :=
  ⟨(C7_publish_best_effort envUploadFail inpAuto (initState "/original")).1,
   ((C7_publish_best_effort envUploadFail inpAuto (initState "/original")).2.1
      "Error: Upload failed" rfl).1,
   (C7_publish_best_effort envUploadFail inpAuto (initState "/original")).2.2
     ⟨⟨("doxygen 1.9.1", ""), rfl⟩, rfl, rfl, rfl, ⟨_, rfl⟩, rfl, ⟨_, rfl⟩, rfl, rfl⟩
     (by decide) rfl⟩

/-- C8.  The generator-availability probe returns a boolean (equal to
whether the version query resolved), false on any rejection, and never
raises; on a false result validateInputs records the GeneratorNotFound
failure and returns normally, so the caller must inspect the recorded
result rather than catch an exception. -/
theorem C8_probe_never_raises (env : Env) (inputs : TaskInputs) (st : ProcState) :
    (checkDoxygenInstallation env st).2 = doxygenOk env ∧
    (∀ e, env.doxygenVersion = Except.error e → doxygenOk env = false) ∧
    (doxygenOk env = false →
      (validateInputs env inputs st).2 = Except.ok () ∧
      (validateInputs env inputs st).1.results =
        st.results ++ [(TaskResult.Failed, tlLoc "DoxygenNotFound" [])]) := by
  refine ⟨?_, ?_, ?_⟩
  · rcases hdv : env.doxygenVersion with e | o <;>
      simp [checkDoxygenInstallation, doxygenOk, hdv]
  · intro e he
    simp [doxygenOk, he]
  · intro hdo
    rcases hdv : env.doxygenVersion with e | o
    · constructor <;> simp [validateInputs, checkDoxygenInstallation, hdv]
    · simp [doxygenOk, hdv] at hdo

/-- Witness for C8 at a concrete input with the probe rejecting. -/
theorem C8_witness :
    (validateInputs envProbeFail inpAuto (initState "/original")).2 = Except.ok () ∧
    (validateInputs envProbeFail inpAuto (initState "/original")).1.results =
      (initState "/original").results ++
        [(TaskResult.Failed, tlLoc "DoxygenNotFound" [])] :=
  (C8_probe_never_raises envProbeFail inpAuto (initState "/original")).2.2 (by decide)

/-- If the write/run/cleanup continuation resolves normally, the working
directory ends up restored to the recorded original. -/
theorem genDocCont_ok_cwd (env : Env) (inputs : TaskInputs) (ocwd : String)
    (st : ProcState) (cfg : String)
    (h : (genDocCont env inputs ocwd st cfg).2 = Except.ok ()) :
    (genDocCont env inputs ocwd st cfg).1.cwd = ocwd := by
  rcases hwf : env.writeFile with e | u1
  · simp [genDocCont, genFail, hwf] at h
  · rcases hex : env.execDoxygen with e | ⟨so, se⟩
    · simp [genDocCont, genFail, hwf, hex] at h
    · rcases hrm : env.removeTemp with e | u2
      · simp [genDocCont, genFail, hwf, hex, hrm] at h
      · rcases hcb : env.chdirBack with e | u3
        · simp [genDocCont, genFail, hwf, hex, hrm, hcb] at h
        · simp [genDocCont, hwf, hex, hrm, hcb]

/-- C9.  Whenever generateDocumentation returns normally (in particular the
generator subprocess invocation succeeded), the process working directory
afterwards equals the working directory recorded before the call, for every
value of sourceDirectory. -/
theorem C9_cwd_restored_on_success (env : Env) (inputs : TaskInputs) (st : ProcState)
    (h : (generateDocumentation env inputs st).2 = Except.ok ()) :
    (generateDocumentation env inputs st).1.cwd = st.cwd := by
  rcases hchd : env.chdirSource with e | u
  · simp [generateDocumentation, genFail, hchd] at h
  · by_cases hb : (inputs.useCustomDoxyFile && strTruthy inputs.customDoxyFilePath) = true
    · rcases hrf : env.readFile with e | c
      · simp [generateDocumentation, genFail, hchd, hrf, hb] at h
      · simp only [generateDocumentation, hchd, hrf, hb, if_true] at h ⊢
        exact genDocCont_ok_cwd _ _ _ _ _ h
    · simp only [Bool.not_eq_true] at hb
      simp only [generateDocumentation, hchd, hb, if_false] at h ⊢
      exact genDocCont_ok_cwd _ _ _ _ _ h

/-- Witness for C9 at a concrete all-success environment. -/
theorem C9_witness :
    (generateDocumentation envAllOk inpAuto (initState "/original")).1.cwd =
      (initState "/original").cwd :=
  C9_cwd_restored_on_success envAllOk inpAuto (initState "/original") rfl

/-- The write/run/cleanup continuation never reads any file. -/
theorem genDocCont_reads (env : Env) (inputs : TaskInputs) (ocwd : String)
    (st : ProcState) (cfg : String) :
    (genDocCont env inputs ocwd st cfg).1.reads = st.reads := by
  rcases hwf : env.writeFile with e | u1
  · simp [genDocCont, genFail, hwf]
  · rcases hex : env.execDoxygen with e | ⟨so, se⟩
    · simp [genDocCont, genFail, hwf, hex]
    · rcases hrm : env.removeTemp with e | u2
      · simp [genDocCont, genFail, hwf, hex, hrm]
      · rcases hcb : env.chdirBack with e | u3
        · simp [genDocCont, genFail, hwf, hex, hrm, hcb]
        · simp [genDocCont, hwf, hex, hrm, hcb]

/-- When the temporary-file write succeeds, the continuation writes exactly
the configuration text to Doxyfile.tmp in the current directory. -/
theorem genDocCont_writes_ok (env : Env) (inputs : TaskInputs) (ocwd : String)
    (st : ProcState) (cfg : String) (hwf : env.writeFile = Except.ok ()) :
    (genDocCont env inputs ocwd st cfg).1.writes =
      st.writes ++ [(joinPath st.cwd "Doxyfile.tmp", cfg)] := by
  rcases hex : env.execDoxygen with e | ⟨so, se⟩
  · simp [genDocCont, genFail, hwf, hex]
  · rcases hrm : env.removeTemp with e | u2
    · simp [genDocCont, genFail, hwf, hex, hrm]
    · rcases hcb : env.chdirBack with e | u3
      · simp [genDocCont, genFail, hwf, hex, hrm, hcb]
      · simp [genDocCont, hwf, hex, hrm, hcb]

/-- C10.  With useCustomDoxyFile set but customDoxyFilePath absent or
empty, generateDocumentation silently takes the auto-mode branch: no file is
read, and the content written to the temporary configuration file is the
synthesized template, because the custom branch requires both the flag and a
truthy path. -/
theorem C10_flag_without_path_takes_auto (env : Env) (inputs : TaskInputs)
    (st : ProcState)
    (hu : inputs.useCustomDoxyFile = true)
    (ht : strTruthy inputs.customDoxyFilePath = false) :
    (generateDocumentation env inputs st).1.reads = st.reads ∧
    (env.chdirSource = Except.ok () → env.writeFile = Except.ok () →
      (generateDocumentation env inputs st).1.writes =
        st.writes ++ [(joinPath inputs.sourceDirectory "Doxyfile.tmp",
          generateAutoDoxyfile inputs)]) := by
  have hb : (inputs.useCustomDoxyFile && strTruthy inputs.customDoxyFilePath) = false := by
    simp [hu, ht]
  constructor
  · rcases hchd : env.chdirSource with e | u
    · simp [generateDocumentation, genFail, hchd]
    · simp [generateDocumentation, hchd, hb, genDocCont_reads]
  · intro hchd hwf
    simp [generateDocumentation, hchd, hb, genDocCont_writes_ok, hwf, joinPath]

/-- Witness for C10 at a concrete input: flag set, path unset, the auto
template is written and nothing is read. -/
theorem C10_witness :
    (generateDocumentation envAllOk inpCustomNoPath (initState "/original")).1.reads =
      (initState "/original").reads ∧
    (generateDocumentation envAllOk inpCustomNoPath (initState "/original")).1.writes =
      (initState "/original").writes ++
        [(joinPath inpCustomNoPath.sourceDirectory "Doxyfile.tmp",
          generateAutoDoxyfile inpCustomNoPath)] :=
  ⟨(C10_flag_without_path_takes_auto envAllOk inpCustomNoPath (initState "/original")
      (by decide) (by decide)).1,
   (C10_flag_without_path_takes_auto envAllOk inpCustomNoPath (initState "/original")
      (by decide) (by decide)).2 rfl rfl⟩

end Doxy
